import Mathlib

/-!
Verification of the IFRS 9 transition-matrix engine (`matrix_functions.py`).

The numpy/pandas code is shallowly embedded over exact rationals:

* a numpy array is a function `ℕ → ℕ → ℚ` together with the explicit
  dimension `n` passed to every operation (only indices below `n` are ever
  read by the operations; `matMul`/`matPow` sum over `Finset.range n`,
  matching `np.linalg.matrix_power` on an `n × n` array);
* the multi-index dataframe of per-segment matrices is a list of
  `(segment, matrix)` pairs;
* a raised Python exception is `Except.error` carrying the message;
* `pd.crosstab(..., values=out_balance, aggfunc="sum", normalize='index',
  dropna=False)` delegates to `pivot_table`, whose `dropna=False` path
  reindexes the MultiIndex row axis with the cartesian product of the
  observed level values: there is a row for every observed segment ×
  observed current stage, while the single-level column axis keeps just
  the observed next stages.  A cell is `some` (an aggregated sum divided
  by the skip-NA row total) when its `(row, column)` pair has
  observations and `none` (NaN) otherwise; rows for unobserved pairs are
  therefore entirely NaN, and `normalize='index'` leaves them NaN
  (NaN divided by the 0.0 skip-NA total).
-/

namespace IFRS9

/-- A numpy-style matrix: entries indexed by naturals, exact rationals.
The active block is the leading `n × n` square for the `n` passed to each
operation. -/
abbrev NMatrix : Type := ℕ → ℕ → ℚ

/-- Matrix product of the leading `n × n` blocks (numpy `@` on `n × n`). -/
def matMul (n : ℕ) (A B : NMatrix) : NMatrix :=
  fun i j => ∑ k ∈ Finset.range n, A i k * B k j

/-- `np.linalg.matrix_power` on an `n × n` array: `A^0` is the identity and
`A^(t+1) = A^t ⬝ A`. -/
def matPow (n : ℕ) (A : NMatrix) : ℕ → NMatrix
  | 0 => fun i j => if i = j then 1 else 0
  | t + 1 => matMul n (matPow n A t) A

/-- One row of the input table of `base_matrices`: a loan-level transition
observation (`loan_type`, `current_stage`, `next_stage`, `out_balance`). -/
structure TransitionRecord where
  loan_type : String
  current_stage : String
  next_stage : String
  out_balance : ℚ
deriving DecidableEq

/-- The aggregation step of `pd.crosstab(..., aggfunc="sum")`: the cell for
row key `rk = (loan_type, current_stage)` and column key `ck = next_stage`
is the sum of `out_balance` over the matching records, and NaN (`none`)
when no record matches. -/
def aggCell (df : List TransitionRecord) (rk : String × String) (ck : String) :
    Option ℚ :=
  let cell := df.filter fun r =>
    decide ((r.loan_type, r.current_stage) = rk ∧ r.next_stage = ck)
  if cell.isEmpty then none else some ((cell.map TransitionRecord.out_balance).sum)

/-- `base_matrices` (matrix_functions.py:7-26): drop records with
`next_stage == 'exit'`, then cross-tabulate `out_balance` sums by
`(loan_type, current_stage)` against `next_stage`, normalized by row
(`normalize='index'` divides each cell by the row's skip-NA total).
With `dropna=False` the row axis is the cartesian product of the observed
`loan_type` values and the observed `current_stage` values, so unobserved
pairs appear as rows too; their cells — like every cell whose
`(row, column)` pair has no observations — are NaN (`none`).  Column keys
are the observed `next_stage` values. -/
def base_matrices (records : List TransitionRecord) :
    List ((String × String) × List (String × Option ℚ)) :=
  let df := records.filter fun r => decide (r.next_stage ≠ "exit")
  let segKeys := (df.map fun r => r.loan_type).dedup
  let stageKeys := (df.map fun r => r.current_stage).dedup
  let rowKeys := List.product segKeys stageKeys
  let colKeys := (df.map fun r => r.next_stage).dedup
  rowKeys.map fun rk =>
    let rowSum := (colKeys.map fun ck => (aggCell df rk ck).getD 0).sum
    (rk, colKeys.map fun ck => (ck, (aggCell df rk ck).map fun v => v / rowSum))

/-- The row assignment `.iloc[k] = (0,...,0,1)`: row `k` becomes the unit
vector with the 1 in column `k`, all other rows are untouched. -/
def setLastRow (k : ℕ) (M : NMatrix) : NMatrix :=
  fun i j => if i = k then (if j = k then 1 else 0) else M i j

/-- `absorbing_state` (matrix_functions.py:29-53): validates
`matrix_size ∈ {3,4}` (else `ValueError`), then overwrites the last row of
every segment's matrix with the unit vector `(0,...,0,1)` — row 2 set to
`(0,0,1)` for size 3, row 3 set to `(0,0,0,1)` for size 4 — and returns the
resulting collection (the Python falls through to `return matrices_df`
untouched in the unreachable remaining case). -/
def absorbing_state (n : ℕ) (mats : List (String × NMatrix)) :
    Except String (List (String × NMatrix)) :=
  if ¬(n = 3 ∨ n = 4) then
    .error "Invalid matrix size. Should be 3 or 4 only."
  else if n = 3 then
    .ok (mats.map fun p => (p.1, setLastRow 2 p.2))
  else if n = 4 then
    .ok (mats.map fun p => (p.1, setLastRow 3 p.2))
  else
    .ok mats

/-- The Python call `matrices_df.loc[seg].iloc[k] = ...` inside
`absorbing_state` is an in-place chained assignment on the dataframe the
caller passed in (a view, since the frame has a single dtype), and the
function returns that very object.  We model the call by state passing:
the result pairs the value of the caller's dataframe after the call with
the returned dataframe.  They are the same object, hence the same value. -/
def absorbing_state_call (n : ℕ) (mats : List (String × NMatrix)) :
    Except String ((List (String × NMatrix)) × (List (String × NMatrix))) :=
  match absorbing_state n mats with
  | .error e => .error e
  | .ok res => .ok (res, res)

/-- The list comprehension at matrix_functions.py:75: cumulative PDs for an
originating `stage`, horizon `i` in `range(1, 301)`, each entry
`np.linalg.matrix_power(M, i)[stage, matrix_size - 1]`. -/
def cumulative_pds (n : ℕ) (M : NMatrix) (stage : ℕ) : List ℚ :=
  (List.range' 1 300).map fun i => matPow n M i stage (n - 1)

/-- The list comprehension at matrix_functions.py:77 (and 111-112, 124):
first element is the first cumulative value, each later element is the
difference of consecutive cumulative values. -/
def marginal_pds (c : List ℚ) : List ℚ :=
  (List.range c.length).map fun i =>
    if i = 0 then c.getD i 0 else c.getD i 0 - c.getD (i - 1) 0

/-- `extract_pds` (matrix_functions.py:56-85): validates
`matrix_size ∈ {3,4}` (else `ValueError`), then for each originating stage
`0..matrix_size-2` builds one cumulative table and one marginal table, each
keyed by segment; the tuple returned is the cumulative tables followed by
the marginal tables, named `non-default-<stage>-cumulative` /
`non-default-<stage>-marginal`. -/
def extract_pds (n : ℕ) (mats : List (String × NMatrix)) :
    Except String (List (String × List (String × List ℚ))) :=
  if ¬(n = 3 ∨ n = 4) then
    .error "Invalid matrix size. Should be 3 or 4 only"
  else
    .ok (((List.range (n - 1)).map fun stage =>
            ("non-default-" ++ toString stage ++ "-cumulative",
             mats.map fun p => (p.1, cumulative_pds n p.2 stage))) ++
         ((List.range (n - 1)).map fun stage =>
            ("non-default-" ++ toString stage ++ "-marginal",
             mats.map fun p => (p.1, marginal_pds (cumulative_pds n p.2 stage)))))

/-- Input of `cure_rate`: `hasRecoveries` records whether the dataframe has
a `recoveries` column; `rows` holds the categorical value of that column
(of the `cures` column in the degraded variant) together with
`out_balance`. -/
structure RecoveryData where
  hasRecoveries : Bool
  rows : List (String × ℚ)
deriving DecidableEq

/-- `df.groupby(col)['out_balance'].sum().loc[key]`: the sum of
`out_balance` over rows in category `key`, or a `KeyError` (`none`) when
the category never occurs. -/
def groupSum (rows : List (String × ℚ)) (key : String) : Option ℚ :=
  let grp := rows.filter fun r => decide (r.1 = key)
  if grp.isEmpty then none else some ((grp.map Prod.snd).sum)

/-- The 3×3 matrix built at matrix_functions.py:100-104: `np.identity(3)`
with row 2 overwritten by the aggregated balances `(c, r, s)` for
`cured` / `recovered` / `stage_3`, then every row divided by its row sum
(`cr_rr / cr_rr.sum(axis=1, keepdims=1)`). -/
def cure_matrix (c r s : ℚ) : NMatrix :=
  let base : NMatrix := fun i j =>
    if i = 2 ∧ j = 0 then c
    else if i = 2 ∧ j = 1 then r
    else if i = 2 ∧ j = 2 then s
    else if i = j then 1 else 0
  fun i j => base i j / ∑ k ∈ Finset.range 3, base i k

/-- The comprehension at matrix_functions.py:108: cumulative cure rates,
entry `np.linalg.matrix_power(cr_rr, i)[2, 0]` for `i` in `range(1, 301)`. -/
def cumulative_cure_rate (M : NMatrix) : List ℚ :=
  (List.range' 1 300).map fun i => matPow 3 M i 2 0

/-- The comprehension at matrix_functions.py:109: cumulative recovery
rates, entry `np.linalg.matrix_power(cr_rr, i)[2, 1]`. -/
def cumulative_recovery_rate (M : NMatrix) : List ℚ :=
  (List.range' 1 300).map fun i => matPow 3 M i 2 1

/-- `cure_rate` (matrix_functions.py:88-126).  With a `recoveries` column:
look up the three aggregated balances (each lookup raises `KeyError` when
its category is absent), build `cure_matrix`, and return the marginal cure
and recovery rate columns.  Without it (the degraded branch,
lines 114-124): line 116 looks up `cured` in the `cures` aggregation
(raising `KeyError` if absent), then line 117 unconditionally raises — it
groups by the absent `recoveries` column (and names the undefined `cr_rr`).
The branch can never return. -/
def cure_rate (df : RecoveryData) : Except String (List (String × List ℚ)) :=
  if df.hasRecoveries then
    match groupSum df.rows "cured" with
    | none => .error "KeyError: cured"
    | some c =>
      match groupSum df.rows "recovered" with
      | none => .error "KeyError: recovered"
      | some r =>
        match groupSum df.rows "stage_3" with
        | none => .error "KeyError: stage_3"
        | some s =>
          let cr_rr := cure_matrix c r s
          .ok [("cure_rates", marginal_pds (cumulative_cure_rate cr_rr)),
               ("recovery_rates", marginal_pds (cumulative_recovery_rate cr_rr))]
  else
    match groupSum df.rows "cured" with
    | none => .error "KeyError: cured"
    | some _ => .error "KeyError: recoveries"

/-- Row-stochasticity of the leading `n × n` block: nonnegative entries and
unit row sums. -/
def RowStoch (n : ℕ) (M : NMatrix) : Prop :=
  (∀ i ∈ Finset.range n, ∀ j ∈ Finset.range n, 0 ≤ M i j) ∧
  ∀ i ∈ Finset.range n, (∑ j ∈ Finset.range n, M i j) = 1

/-- The last stage is absorbing: row `n - 1` is the last unit vector. -/
def AbsorbLast (n : ℕ) (M : NMatrix) : Prop :=
  ∀ j ∈ Finset.range n, M (n - 1) j = if j = n - 1 then 1 else 0

instance (n : ℕ) (M : NMatrix) : Decidable (RowStoch n M) := by
  unfold RowStoch; infer_instance

instance (n : ℕ) (M : NMatrix) : Decidable (AbsorbLast n M) := by
  unfold AbsorbLast; infer_instance

/-- The differencing relation between a marginal and a cumulative sequence. -/
def MarginalRel (m c : List ℚ) : Prop :=
  m.length = c.length ∧ m.getD 0 0 = c.getD 0 0 ∧
  ∀ t, 1 ≤ t → t < c.length → m.getD t 0 = c.getD t 0 - c.getD (t - 1) 0

/-- A concrete absorbing row-stochastic 3×3 matrix: stage 1 stays with
probability 9/10 and defaults with probability 1/10, stage 2 stays or
defaults with probability 1/2 each, stage 3 is absorbing. -/
def wM : NMatrix := fun i j =>
  if i = 0 ∧ j = 0 then 9/10
  else if i = 0 ∧ j = 2 then 1/10
  else if i = 1 ∧ j = 1 then 1/2
  else if i = 1 ∧ j = 2 then 1/2
  else if i = 2 ∧ j = 2 then 1
  else 0

/-- A one-segment collection holding `wM`. -/
def wMats : List (String × NMatrix) := [("retail", wM)]

/-- A concrete non-absorbing 3×3 matrix: every entry 1/3. -/
def exM : NMatrix := fun _ _ => 1/3

/-- A one-segment collection holding `exM`, used as a mutation input. -/
def exMats : List (String × NMatrix) := [("retail", exM)]

/-- `exMats` after the in-place absorbing-row assignment. -/
def exMatsAbsorbed : List (String × NMatrix) := [("retail", setLastRow 2 exM)]

/-- A concrete transition table in which `stage_3` never occurs as a
`next_stage` and `(personal, stage_3)` is never a current stage. -/
def records7 : List TransitionRecord :=
  [⟨"personal", "stage_1", "stage_1", 50⟩,
   ⟨"personal", "stage_2", "stage_1", 30⟩]

/-- A concrete cures-only table (no `recoveries` column). -/
def degradedDf : RecoveryData := ⟨false, [("cured", 100), ("stage_3", 50)]⟩

/-- A concrete table with a `recoveries` column covering all three
categories. -/
def wDf : RecoveryData :=
  ⟨true, [("cured", 6), ("recovered", 3), ("stage_3", 1)]⟩

theorem getD_map_range' (f : ℕ → ℚ) (k len i : ℕ) (h : i < len) :
    ((List.range' k len).map f).getD i 0 = f (k + i) := by
  rw [List.getD_eq_getElem?_getD, List.getElem?_map, List.getElem?_range' _ _ h]
  simp

theorem getD_map_range (f : ℕ → ℚ) (len i : ℕ) (h : i < len) :
    ((List.range len).map f).getD i 0 = f i := by
  rw [List.getD_eq_getElem?_getD, List.getElem?_map, List.getElem?_range h]
  rfl

theorem marginal_pds_rel (c : List ℚ) : MarginalRel (marginal_pds c) c := by
  refine ⟨by simp [marginal_pds], ?_, ?_⟩
  · rcases Nat.eq_zero_or_pos c.length with hc | hc
    · simp [marginal_pds, hc, List.length_eq_zero.mp hc]
    · rw [marginal_pds, getD_map_range _ _ _ hc]
      simp
  · intro t ht htlen
    rw [marginal_pds, getD_map_range _ _ _ htlen, if_neg (by omega : ¬t = 0)]

theorem matPow_rowStoch (n : ℕ) (M : NMatrix) (h : RowStoch n M) :
    ∀ t, RowStoch n (matPow n M t) := by
  intro t
  induction t with
  | zero =>
    constructor
    · intro i _ j _
      simp only [matPow]
      split <;> norm_num
    · intro i hi
      simp only [matPow]
      rw [Finset.sum_ite_eq (Finset.range n) i (fun _ => (1 : ℚ)), if_pos hi]
  | succ t ih =>
    constructor
    · intro i hi j hj
      simp only [matPow, matMul]
      refine Finset.sum_nonneg fun k hk => ?_
      exact mul_nonneg (ih.1 i hi k hk) (h.1 k hk j hj)
    · intro i hi
      rw [show (matPow n M (t + 1)) = matMul n (matPow n M t) M from rfl]
      unfold matMul
      rw [Finset.sum_comm]
      calc (∑ k ∈ Finset.range n, ∑ j ∈ Finset.range n, matPow n M t i k * M k j)
          = ∑ k ∈ Finset.range n, matPow n M t i k * ∑ j ∈ Finset.range n, M k j := by
            exact Finset.sum_congr rfl fun k _ => (Finset.mul_sum _ _ _).symm
        _ = ∑ k ∈ Finset.range n, matPow n M t i k := by
            exact Finset.sum_congr rfl fun k hk => by rw [h.2 k hk, mul_one]
        _ = 1 := ih.2 i hi

theorem rowStoch_entry_le_one (n : ℕ) (M : NMatrix) (h : RowStoch n M)
    (i j : ℕ) (hi : i ∈ Finset.range n) (hj : j ∈ Finset.range n) : M i j ≤ 1 := by
  calc M i j ≤ ∑ k ∈ Finset.range n, M i k :=
        Finset.single_le_sum (fun k hk => h.1 i hi k hk) hj
    _ = 1 := h.2 i hi

theorem matPow_last_mono (n : ℕ) (M : NMatrix) (hn : 0 < n) (h : RowStoch n M)
    (habs : AbsorbLast n M) (i : ℕ) (hi : i ∈ Finset.range n) (t : ℕ) :
    matPow n M t i (n - 1) ≤ matPow n M (t + 1) i (n - 1) := by
  have hlast : n - 1 ∈ Finset.range n := Finset.mem_range.mpr (Nat.sub_lt hn Nat.one_pos)
  have hstoch := matPow_rowStoch n M h t
  have hterm : matPow n M t i (n - 1) * M (n - 1) (n - 1) ≤
      ∑ k ∈ Finset.range n, matPow n M t i k * M k (n - 1) := by
    refine Finset.single_le_sum (f := fun k => matPow n M t i k * M k (n - 1))
      (fun k hk => mul_nonneg (hstoch.1 i hi k hk) (h.1 k hk (n - 1) hlast)) hlast
  have habs' : M (n - 1) (n - 1) = 1 := by simpa using habs (n - 1) hlast
  calc matPow n M t i (n - 1) = matPow n M t i (n - 1) * M (n - 1) (n - 1) := by
        rw [habs', mul_one]
    _ ≤ ∑ k ∈ Finset.range n, matPow n M t i k * M k (n - 1) := hterm
    _ = matPow n M (t + 1) i (n - 1) := rfl

theorem setLastRow_idem (k : ℕ) (M : NMatrix) :
    setLastRow k (setLastRow k M) = setLastRow k M := by
  funext i j
  by_cases hik : i = k <;> simp [setLastRow, hik]

theorem absorbing_state_three (mats : List (String × NMatrix)) :
    absorbing_state 3 mats = .ok (mats.map fun p => (p.1, setLastRow 2 p.2)) := rfl

theorem absorbing_state_four (mats : List (String × NMatrix)) :
    absorbing_state 4 mats = .ok (mats.map fun p => (p.1, setLastRow 3 p.2)) := rfl

theorem absorbing_state_invalid (n : ℕ) (mats : List (String × NMatrix))
    (h : ¬(n = 3 ∨ n = 4)) :
    absorbing_state n mats = .error "Invalid matrix size. Should be 3 or 4 only." := by
  rw [absorbing_state, if_pos h]

theorem cumulative_pds_length (n : ℕ) (M : NMatrix) (stage : ℕ) :
    (cumulative_pds n M stage).length = 300 := by
  simp [cumulative_pds]

theorem cumulative_pds_getD (n : ℕ) (M : NMatrix) (stage t : ℕ)
    (h1 : 1 ≤ t) (h2 : t ≤ 300) :
    (cumulative_pds n M stage).getD (t - 1) 0 = matPow n M t stage (n - 1) := by
  rw [cumulative_pds, getD_map_range' _ _ _ _ (by omega)]
  congr 1
  omega

/-- C4: the absorbing-state transform is idempotent — for every collection
of per-segment matrices and every `matrix_size`, applying
`absorbing_state` twice yields the same result as applying it once. -/
theorem absorbing_state_idempotent (n : ℕ) (mats : List (String × NMatrix)) :
    (absorbing_state n mats).bind (absorbing_state n) = absorbing_state n mats := by
  rcases Decidable.em (n = 3 ∨ n = 4) with h | h
  · rcases h with h | h <;> subst h
    · rw [absorbing_state_three]
      show absorbing_state 3 _ = _
      rw [absorbing_state_three, List.map_map]
      simp [Function.comp_def, setLastRow_idem]
    · rw [absorbing_state_four]
      show absorbing_state 4 _ = _
      rw [absorbing_state_four, List.map_map]
      simp [Function.comp_def, setLastRow_idem]
  · rw [absorbing_state_invalid n mats h]
    rfl

/-- C8: for `matrix_size` outside `{3,4}` both `absorbing_state` and
`extract_pds` fail with the invalid-matrix-size error (the code's
`ValueError`, the spec's `InvalidParameterError`), and for `matrix_size`
in `{3,4}` both succeed. -/
theorem matrix_size_validation (n : ℕ) (mats : List (String × NMatrix)) :
    (¬(n = 3 ∨ n = 4) →
      absorbing_state n mats = .error "Invalid matrix size. Should be 3 or 4 only." ∧
      extract_pds n mats = .error "Invalid matrix size. Should be 3 or 4 only") ∧
    ((n = 3 ∨ n = 4) →
      (∃ v, absorbing_state n mats = .ok v) ∧ ∃ v, extract_pds n mats = .ok v) := by
  constructor
  · intro h
    exact ⟨absorbing_state_invalid n mats h, by rw [extract_pds, if_pos h]⟩
  · intro h
    refine ⟨?_, _, by rw [extract_pds, if_neg (not_not_intro h)]⟩
    rcases h with h | h <;> subst h
    · exact ⟨_, absorbing_state_three mats⟩
    · exact ⟨_, absorbing_state_four mats⟩

/-- C1: for every collection of per-segment matrices and `matrix_size` in
`{3,4}`, `extract_pds` produces for each segment and each originating
stage `s ≤ matrix_size - 2` a cumulative table entry of length 300 whose
t-th value (stored at index `t - 1`) is `M^t[s, matrix_size - 1]`. -/
theorem extract_pds_cumulative_entries (n : ℕ) (hn : n = 3 ∨ n = 4)
    (mats : List (String × NMatrix)) (seg : String) (M : NMatrix)
    (hm : (seg, M) ∈ mats) (stage : ℕ) (hst : stage < n - 1) :
    ∃ out, extract_pds n mats = .ok out ∧
      ∃ tbl ∈ out, tbl.1 = "non-default-" ++ toString stage ++ "-cumulative" ∧
        (seg, cumulative_pds n M stage) ∈ tbl.2 ∧
        (cumulative_pds n M stage).length = 300 ∧
        ∀ t, 1 ≤ t → t ≤ 300 →
          (cumulative_pds n M stage).getD (t - 1) 0 = matPow n M t stage (n - 1) := by
  refine ⟨_, by rw [extract_pds, if_neg (not_not_intro hn)], ?_⟩
  refine ⟨("non-default-" ++ toString stage ++ "-cumulative",
           mats.map fun p => (p.1, cumulative_pds n p.2 stage)),
          List.mem_append_left _ (List.mem_map.mpr ⟨stage, List.mem_range.mpr hst, rfl⟩),
          rfl, List.mem_map.mpr ⟨(seg, M), hm, rfl⟩, cumulative_pds_length n M stage, ?_⟩
  intro t h1 h2
  exact cumulative_pds_getD n M stage t h1 h2

/-- Witness for C1: the single-segment collection `wMats`, size 3,
originating stage 0. -/
theorem extract_pds_cumulative_entries_witness :
    ∃ out, extract_pds 3 wMats = .ok out ∧
      ∃ tbl ∈ out, tbl.1 = "non-default-" ++ toString 0 ++ "-cumulative" ∧
        ("retail", cumulative_pds 3 wM 0) ∈ tbl.2 ∧
        (cumulative_pds 3 wM 0).length = 300 ∧
        ∀ t, 1 ≤ t → t ≤ 300 →
          (cumulative_pds 3 wM 0).getD (t - 1) 0 = matPow 3 wM t 0 (3 - 1) :=
  extract_pds_cumulative_entries 3 (Or.inl rfl) wMats "retail" wM
    (List.mem_singleton.mpr rfl) 0 (by decide)

/-- C2: every cumulative PD sequence `extract_pds` derives from an
absorbing row-stochastic matrix is non-decreasing in the horizon and
bounded in `[0,1]`. -/
theorem extract_pds_cumulative_monotone_bounded (n : ℕ) (hn : n = 3 ∨ n = 4)
    (mats : List (String × NMatrix)) (seg : String) (M : NMatrix)
    (hm : (seg, M) ∈ mats) (hrs : RowStoch n M) (habs : AbsorbLast n M)
    (stage : ℕ) (hst : stage < n - 1) :
    (∃ out, extract_pds n mats = .ok out ∧
       ∃ tbl ∈ out, tbl.1 = "non-default-" ++ toString stage ++ "-cumulative" ∧
         (seg, cumulative_pds n M stage) ∈ tbl.2) ∧
    (∀ i, i + 1 < 300 →
       (cumulative_pds n M stage).getD i 0 ≤ (cumulative_pds n M stage).getD (i + 1) 0) ∧
    (∀ x ∈ cumulative_pds n M stage, 0 ≤ x ∧ x ≤ 1) := by
  have hn0 : 0 < n := by rcases hn with h | h <;> omega
  have hstage : stage ∈ Finset.range n := Finset.mem_range.mpr (by omega)
  have hlast : n - 1 ∈ Finset.range n := Finset.mem_range.mpr (Nat.sub_lt hn0 Nat.one_pos)
  refine ⟨⟨_, by rw [extract_pds, if_neg (not_not_intro hn)],
           ("non-default-" ++ toString stage ++ "-cumulative",
            mats.map fun p => (p.1, cumulative_pds n p.2 stage)),
           List.mem_append_left _ (List.mem_map.mpr ⟨stage, List.mem_range.mpr hst, rfl⟩),
           rfl, List.mem_map.mpr ⟨(seg, M), hm, rfl⟩⟩, ?_, ?_⟩
  · intro i hi
    rw [cumulative_pds, getD_map_range' _ _ _ _ (by omega),
        getD_map_range' _ _ _ _ hi]
    exact matPow_last_mono n M hn0 hrs habs stage hstage (1 + i)
  · intro x hx
    obtain ⟨i, _, rfl⟩ := List.mem_map.mp hx
    have hp := matPow_rowStoch n M hrs i
    exact ⟨hp.1 stage hstage (n - 1) hlast,
           rowStoch_entry_le_one n _ hp stage (n - 1) hstage hlast⟩

/-- Witness for C2: the absorbing row-stochastic matrix `wM`. -/
theorem extract_pds_cumulative_monotone_bounded_witness :
    (∃ out, extract_pds 3 wMats = .ok out ∧
       ∃ tbl ∈ out, tbl.1 = "non-default-" ++ toString 0 ++ "-cumulative" ∧
         ("retail", cumulative_pds 3 wM 0) ∈ tbl.2) ∧
    (∀ i, i + 1 < 300 →
       (cumulative_pds 3 wM 0).getD i 0 ≤ (cumulative_pds 3 wM 0).getD (i + 1) 0) ∧
    (∀ x ∈ cumulative_pds 3 wM 0, 0 ≤ x ∧ x ≤ 1) :=
  extract_pds_cumulative_monotone_bounded 3 (Or.inl rfl) wMats "retail" wM
    (List.mem_singleton.mpr rfl)
    (by
      constructor
      · intro i hi j hj
        simp only [Finset.mem_range] at hi hj
        interval_cases i <;> interval_cases j <;> norm_num [wM]
      · intro i hi
        simp only [Finset.mem_range] at hi
        interval_cases i <;> norm_num [wM, Finset.sum_range_succ])
    (by
      intro j hj
      simp only [Finset.mem_range] at hj
      interval_cases j <;> norm_num [wM])
    0 (by decide)

/-- C3: each marginal sequence of `extract_pds` is the first-difference of
its cumulative sequence (`marginal[0] = cumulative[0]`,
`marginal[t] = cumulative[t] - cumulative[t-1]`), and `cure_rate`'s
marginal rate outputs stand in the same relation to its internally
computed cumulative rates. -/
theorem marginal_differencing (n : ℕ) (hn : n = 3 ∨ n = 4)
    (mats : List (String × NMatrix)) (seg : String) (M : NMatrix)
    (hm : (seg, M) ∈ mats) (stage : ℕ) (hst : stage < n - 1)
    (df : RecoveryData) (c r s : ℚ) (hdf : df.hasRecoveries = true)
    (hc : groupSum df.rows "cured" = some c)
    (hr : groupSum df.rows "recovered" = some r)
    (hs : groupSum df.rows "stage_3" = some s) :
    (∃ out, extract_pds n mats = .ok out ∧
       ∃ tbl ∈ out, tbl.1 = "non-default-" ++ toString stage ++ "-marginal" ∧
         (seg, marginal_pds (cumulative_pds n M stage)) ∈ tbl.2) ∧
    MarginalRel (marginal_pds (cumulative_pds n M stage)) (cumulative_pds n M stage) ∧
    (cure_rate df = .ok
       [("cure_rates", marginal_pds (cumulative_cure_rate (cure_matrix c r s))),
        ("recovery_rates", marginal_pds (cumulative_recovery_rate (cure_matrix c r s)))]) ∧
    MarginalRel (marginal_pds (cumulative_cure_rate (cure_matrix c r s)))
      (cumulative_cure_rate (cure_matrix c r s)) ∧
    MarginalRel (marginal_pds (cumulative_recovery_rate (cure_matrix c r s)))
      (cumulative_recovery_rate (cure_matrix c r s)) := by
  refine ⟨⟨_, by rw [extract_pds, if_neg (not_not_intro hn)],
           ("non-default-" ++ toString stage ++ "-marginal",
            mats.map fun p => (p.1, marginal_pds (cumulative_pds n p.2 stage))),
           List.mem_append_right _ (List.mem_map.mpr ⟨stage, List.mem_range.mpr hst, rfl⟩),
           rfl, List.mem_map.mpr ⟨(seg, M), hm, rfl⟩⟩,
          marginal_pds_rel _, ?_, marginal_pds_rel _, marginal_pds_rel _⟩
  rw [cure_rate]
  simp [hdf, hc, hr, hs]

/-- Witness for C3: `wMats` for the PD side and the table `wDf` for the
cure/recovery side. -/
theorem marginal_differencing_witness :
    (∃ out, extract_pds 3 wMats = .ok out ∧
       ∃ tbl ∈ out, tbl.1 = "non-default-" ++ toString 0 ++ "-marginal" ∧
         ("retail", marginal_pds (cumulative_pds 3 wM 0)) ∈ tbl.2) ∧
    MarginalRel (marginal_pds (cumulative_pds 3 wM 0)) (cumulative_pds 3 wM 0) ∧
    (cure_rate wDf = .ok
       [("cure_rates", marginal_pds (cumulative_cure_rate (cure_matrix 6 3 1))),
        ("recovery_rates", marginal_pds (cumulative_recovery_rate (cure_matrix 6 3 1)))]) ∧
    MarginalRel (marginal_pds (cumulative_cure_rate (cure_matrix 6 3 1)))
      (cumulative_cure_rate (cure_matrix 6 3 1)) ∧
    MarginalRel (marginal_pds (cumulative_recovery_rate (cure_matrix 6 3 1)))
      (cumulative_recovery_rate (cure_matrix 6 3 1)) :=
  marginal_differencing 3 (Or.inl rfl) wMats "retail" wM
    (List.mem_singleton.mpr rfl) 0 (by decide) wDf 6 3 1 rfl
    (by simp [groupSum, wDf]) (by simp [groupSum, wDf]) (by simp [groupSum, wDf])

theorem getD_map_pair (mats : List (String × NMatrix)) (g : NMatrix → NMatrix)
    (k : ℕ) (hk : k < mats.length) :
    (mats.map fun p => (p.1, g p.2)).getD k ("", fun _ _ => 0) =
      ((mats.getD k ("", fun _ _ => 0)).1, g (mats.getD k ("", fun _ _ => 0)).2) := by
  rw [List.getD_eq_getElem?_getD, List.getElem?_map, List.getElem?_eq_getElem hk,
      List.getD_eq_getElem?_getD, List.getElem?_eq_getElem hk]
  rfl

/-- C5 (counterexample): the collection passed to `absorbing_state` is not
unchanged after the call — invoked on `exMats`, the caller's collection
afterwards holds the absorbed matrices, which differ from the originals. -/
theorem absorbing_state_mutates_input :
    absorbing_state_call 3 exMats = .ok (exMatsAbsorbed, exMatsAbsorbed) ∧
    exMatsAbsorbed ≠ exMats := by
  constructor
  · rfl
  · intro h
    have h1 : setLastRow 2 exM = exM := by
      have h2 := congrArg (fun l => (l.headI).2) h
      simpa [exMatsAbsorbed, exMats] using h2
    have h3 := congrFun (congrFun h1 2) 2
    norm_num [setLastRow, exM] at h3

/-- C5 (amended): `absorbing_state` mutates its input in place — after a
successful call the caller's collection and the returned collection are
the same object, so they are equal: each segment keeps its key and each
matrix has its last row replaced by the absorbing unit row, in the input
as well as in the result. -/
theorem absorbing_state_aliasing (n : ℕ) (mats post ret : List (String × NMatrix))
    (h : absorbing_state_call n mats = .ok (post, ret)) :
    post = ret ∧ post.length = mats.length ∧
    ∀ k, k < mats.length →
      (post.getD k ("", fun _ _ => 0)).1 = (mats.getD k ("", fun _ _ => 0)).1 ∧
      (post.getD k ("", fun _ _ => 0)).2 =
        setLastRow (n - 1) (mats.getD k ("", fun _ _ => 0)).2 := by
  unfold absorbing_state_call at h
  cases habs : absorbing_state n mats with
  | error e => rw [habs] at h; exact absurd h (by simp)
  | ok res =>
    rw [habs] at h
    injection h with hres
    injection hres with hpost hret
    subst hpost
    subst hret
    rw [absorbing_state] at habs
    by_cases hg : ¬(n = 3 ∨ n = 4)
    · rw [if_pos hg] at habs; exact absurd habs (by simp)
    · rw [if_neg hg] at habs
      by_cases h3 : n = 3
      · subst h3
        rw [if_pos rfl] at habs
        injection habs with hmap
        subst hmap
        refine ⟨rfl, by simp, fun k hk => ?_⟩
        rw [getD_map_pair mats (setLastRow 2) k hk]
        exact ⟨rfl, rfl⟩
      · rw [if_neg h3] at habs
        by_cases h4 : n = 4
        · subst h4
          rw [if_pos rfl] at habs
          injection habs with hmap
          subst hmap
          refine ⟨rfl, by simp, fun k hk => ?_⟩
          rw [getD_map_pair mats (setLastRow 3) k hk]
          exact ⟨rfl, rfl⟩
        · exact absurd (by tauto : n = 3 ∨ n = 4) (by tauto)

/-- Witness for the amended C5 at the concrete collection `exMats`. -/
theorem absorbing_state_aliasing_witness :
    exMatsAbsorbed = exMatsAbsorbed ∧ exMatsAbsorbed.length = exMats.length ∧
    ∀ k, k < exMats.length →
      (exMatsAbsorbed.getD k ("", fun _ _ => 0)).1 = (exMats.getD k ("", fun _ _ => 0)).1 ∧
      (exMatsAbsorbed.getD k ("", fun _ _ => 0)).2 =
        setLastRow (3 - 1) (exMats.getD k ("", fun _ _ => 0)).2 :=
  absorbing_state_aliasing 3 exMats exMatsAbsorbed exMatsAbsorbed rfl

/-- C7 (code bug): on `records7`, where `stage_3` never occurs as a
`next_stage` and `(personal, stage_3)` never as a current stage, the
output of `base_matrices` has only the two observed row keys and a single
`stage_1` column per row — not the full 3×3 zero-padded shape per segment
that the spec requires. -/
theorem base_matrices_missing_stage_shape :
    (base_matrices records7).map Prod.fst =
      [("personal", "stage_1"), ("personal", "stage_2")] ∧
    (base_matrices records7).map (fun row => row.2.map Prod.fst) =
      [["stage_1"], ["stage_1"]] := by
  constructor <;> rfl

/-- C9 (code bug): on a cures-only table the degraded branch of
`cure_rate` cannot return the cures-only rate table its docstring and the
spec promise — line 117 groups by the absent `recoveries` column (and
references the undefined `cr_rr`), so the call raises instead of
returning. -/
theorem cure_rate_degraded_branch_raises :
    cure_rate degradedDf = .error "KeyError: recoveries" := rfl

theorem cure_matrix_row01 (c r s : ℚ) (i j : ℕ) (hi : i < 2) (hj : j < 3) :
    cure_matrix c r s i j = if i = j then 1 else 0 := by
  interval_cases i <;> interval_cases j <;> norm_num [cure_matrix, Finset.sum_range_succ]

theorem cure_matrix_row2 (c r s : ℚ) (j : ℕ) (hj : j < 3) :
    cure_matrix c r s 2 j =
      (if j = 0 then c else if j = 1 then r else s) / (c + r + s) := by
  interval_cases j <;> norm_num [cure_matrix, Finset.sum_range_succ]

/-- C10: in the recoveries branch of `cure_rate`, the normalized 3×3
matrix keeps rows 0 and 1 as the unit vectors `[1,0,0]` and `[0,1,0]`,
and when the aggregated balances for `cured`, `recovered` and `stage_3`
are non-negative with positive sum, row 2 is non-negative and sums to 1:
the matrix handed to the power extraction is row-stochastic. -/
theorem cure_rate_matrix_row_stochastic (df : RecoveryData) (c r s : ℚ)
    (hdf : df.hasRecoveries = true)
    (hc : groupSum df.rows "cured" = some c)
    (hr : groupSum df.rows "recovered" = some r)
    (hs : groupSum df.rows "stage_3" = some s)
    (hc0 : 0 ≤ c) (hr0 : 0 ≤ r) (hs0 : 0 ≤ s) (hsum : 0 < c + r + s) :
    (cure_rate df = .ok
       [("cure_rates", marginal_pds (cumulative_cure_rate (cure_matrix c r s))),
        ("recovery_rates", marginal_pds (cumulative_recovery_rate (cure_matrix c r s)))]) ∧
    (∀ j < 3, cure_matrix c r s 0 j = if j = 0 then 1 else 0) ∧
    (∀ j < 3, cure_matrix c r s 1 j = if j = 1 then 1 else 0) ∧
    RowStoch 3 (cure_matrix c r s) := by
  have hS : (c + r + s) ≠ 0 := ne_of_gt hsum
  refine ⟨by rw [cure_rate]; simp [hdf, hc, hr, hs], ?_, ?_, ?_, ?_⟩
  · intro j hj
    rw [cure_matrix_row01 c r s 0 j (by omega) hj]
    simp [eq_comm]
  · intro j hj
    rw [cure_matrix_row01 c r s 1 j (by omega) hj]
    simp [eq_comm]
  · intro i hi j hj
    simp only [Finset.mem_range] at hi hj
    rcases Nat.lt_or_ge i 2 with h2 | h2
    · rw [cure_matrix_row01 c r s i j h2 hj]
      split <;> norm_num
    · have hi2 : i = 2 := by omega
      subst hi2
      rw [cure_matrix_row2 c r s j hj]
      refine div_nonneg ?_ hsum.le
      split
      · exact hc0
      · split
        · exact hr0
        · exact hs0
  · intro i hi
    simp only [Finset.mem_range] at hi
    rcases Nat.lt_or_ge i 2 with h2 | h2
    · rw [Finset.sum_range_succ, Finset.sum_range_succ, Finset.sum_range_succ,
          Finset.sum_range_zero,
          cure_matrix_row01 c r s i 0 h2 (by omega),
          cure_matrix_row01 c r s i 1 h2 (by omega),
          cure_matrix_row01 c r s i 2 h2 (by omega)]
      interval_cases i <;> norm_num
    · have hi2 : i = 2 := by omega
      subst hi2
      rw [Finset.sum_range_succ, Finset.sum_range_succ, Finset.sum_range_succ,
          Finset.sum_range_zero,
          cure_matrix_row2 c r s 0 (by omega),
          cure_matrix_row2 c r s 1 (by omega),
          cure_matrix_row2 c r s 2 (by omega)]
      norm_num
      rw [div_add_div_same, div_add_div_same, div_self hS]

/-- Witness for C10 at the table `wDf` (balances 6, 3, 1). -/
theorem cure_rate_matrix_row_stochastic_witness :
    (cure_rate wDf = .ok
       [("cure_rates", marginal_pds (cumulative_cure_rate (cure_matrix 6 3 1))),
        ("recovery_rates", marginal_pds (cumulative_recovery_rate (cure_matrix 6 3 1)))]) ∧
    (∀ j < 3, cure_matrix 6 3 1 0 j = if j = 0 then 1 else 0) ∧
    (∀ j < 3, cure_matrix 6 3 1 1 j = if j = 1 then 1 else 0) ∧
    RowStoch 3 (cure_matrix 6 3 1) :=
  cure_rate_matrix_row_stochastic wDf 6 3 1 rfl
    (by simp [groupSum, wDf]) (by simp [groupSum, wDf]) (by simp [groupSum, wDf])
    (by norm_num) (by norm_num) (by norm_num) (by norm_num)

/-- Witness for C8 at `matrix_size = 5` (invalid) and `3` (valid). -/
theorem matrix_size_validation_witness :
    (absorbing_state 5 [] = .error "Invalid matrix size. Should be 3 or 4 only." ∧
     extract_pds 5 [] = .error "Invalid matrix size. Should be 3 or 4 only") ∧
    ((∃ v, absorbing_state 3 [] = .ok v) ∧ ∃ v, extract_pds 3 [] = .ok v) :=
  ⟨(matrix_size_validation 5 []).1 (by decide),
   (matrix_size_validation 3 []).2 (Or.inl rfl)⟩

end IFRS9
